import Mathlib

/- Verification of the RPC2 transport client (src/lib/rpc2.ts) and of the
komari-to-nezha roster reconciler (src/lib/utils.ts) of nezha-dash-v1.

The TypeScript sources are shallowly embedded: JS numbers that the code
treats as integers are modelled as Int (with explicit 32-bit wrapping where
JS bitwise operators apply), optional / possibly-undefined JSON fields as
Option, and the JS falsy-defaulting idiom `x || d` by small helper
functions.  Host effects (WebSocket, fetch, timers, Date) are modelled by
explicit state passing: timers become Boolean "scheduled" flags or event
alphabets, and wall-clock / Date readings become function parameters. -/

namespace NezhaDash

/- ---------------------------------------------------------------------
   JS defaulting helpers
--------------------------------------------------------------------- -/

/-- JS truthiness of an optional string: `undefined` and `""` are falsy. -/
def truthyStr : Option String → Bool
  | none => false
  | some s => s != ""

/-- JS `s || d` for an optional string field (`undefined` and `""` give `d`). -/
def strOr : Option String → String → String
  | none, d => d
  | some s, d => if s = "" then d else s

/-- JS `s ? [s] : []` for an optional string field. -/
def strWrap : Option String → List String
  | none => []
  | some s => if s = "" then [] else [s]

/- ---------------------------------------------------------------------
   uuidToNumber and countryFlagToCode (src/lib/utils.ts:325-338)
--------------------------------------------------------------------- -/

/-- JS ToInt32: wrap an integer into [-2^31, 2^31). -/
def toInt32 (x : Int) : Int :=
  let r := x % 4294967296
  if r < 2147483648 then r else r - 4294967296

/-- src/lib/utils.ts:325-332.  `hash = charCode + ((hash << 5) - hash)` over
the characters, then `hash >>> 0`.  `hash << 5` coerces through ToInt32;
the remaining arithmetic is exact for strings of realistic length (the
intermediate values stay far below 2^53, where JS doubles are exact).
`charCodeAt` agrees with the code point for the BMP characters uuids use. -/
def uuidToNumber (uuid : String) : Nat :=
  ((uuid.data.foldl (fun h c => (c.toNat : Int) + (toInt32 (toInt32 h * 32) - h)) 0)
      % 4294967296).toNat

/-- src/lib/utils.ts:336-338.  Each flag-emoji code point is shifted down by
127397 and up by 32 (regional indicator → lowercase ASCII letter);
`String.fromCharCode` truncates to 16 bits, modelled by the mod 65536. -/
def countryFlagToCode (flag : String) : String :=
  ⟨flag.data.map (fun c => Char.ofNat ((((c.toNat : Int) - 127397 + 32) % 65536).toNat))⟩

/- ---------------------------------------------------------------------
   Komari payload shapes (the fields utils.ts reads)
--------------------------------------------------------------------- -/

/-- The `gpu` field of a live-status record: absent, a plain number, or
already a list.  `typeof status.gpu === "number"` matches only `num`. -/
inductive GpuField
  | absent
  | num (n : Int)
  | list (l : List Int)
deriving DecidableEq

/-- One live-status record, i.e. one value of the raw websocket mapping.
Optional fields model possibly-undefined JSON members. -/
structure KomariStatus where
  os : Option String
  kernel_version : Option String
  cpu_name : Option String
  gpu_name : Option String
  ram_total : Option Int
  disk_total : Option Int
  swap_total : Option Int
  arch : Option String
  time : String
  uptime : Option Int
  cpu : Option Int
  ram : Option Int
  swap : Option Int
  disk : Option Int
  net_total_down : Option Int
  net_total_up : Option Int
  net_in : Option Int
  net_out : Option Int
  load : Option Int
  load5 : Option Int
  load15 : Option Int
  connections : Option Int
  connections_udp : Option Int
  process : Option Int
  temp : Option Int
  gpu : GpuField
  name : Option String
  region : Option String
deriving DecidableEq

/-- One cached roster entry (an element of `km_servers_cache`, i.e. one value
of the `common:getNodes` result).  Fields the cached path reads without a
default are modelled as plain values; `gpu_name`, `public_note` and
`weight` go through truthiness tests / `|| 0` and stay optional. -/
structure KomariServer where
  uuid : String
  os : String
  kernel_version : String
  cpu_name : String
  gpu_name : Option String
  mem_total : Int
  disk_total : Int
  swap_total : Int
  arch : String
  name : String
  public_note : Option String
  region : String
  weight : Option Int
deriving DecidableEq

/- ---------------------------------------------------------------------
   Nezha output shapes
--------------------------------------------------------------------- -/

/-- One `{ Name, Temperature }` reading. -/
structure TemperatureReading where
  Name : String
  Temperature : Int
deriving DecidableEq

structure NezhaHost where
  platform : String
  platform_version : String
  cpu : List String
  gpu : List String
  mem_total : Int
  disk_total : Int
  swap_total : Int
  arch : String
  boot_time : Int
  version : String
deriving DecidableEq

structure NezhaState where
  cpu : Int
  mem_used : Int
  swap_used : Int
  disk_used : Int
  net_in_transfer : Int
  net_out_transfer : Int
  net_in_speed : Int
  net_out_speed : Int
  uptime : Int
  load_1 : Int
  load_5 : Int
  load_15 : Int
  tcp_conn_count : Int
  udp_conn_count : Int
  process_count : Int
  temperatures : List TemperatureReading
  gpu : List Int
deriving DecidableEq

structure NezhaServer where
  id : Nat
  name : String
  public_note : String
  last_active : String
  country_code : String
  display_index : Int
  host : NezhaHost
  state : NezhaState
deriving DecidableEq

structure NezhaWebsocketResponse where
  now : Int
  servers : List NezhaServer
deriving DecidableEq

/- ---------------------------------------------------------------------
   komariToNezhaWebsocketResponse (src/lib/utils.ts:340-532)

   Host-effect parameters: `pt` models `s => new Date(s).getTime() / 1000`
   (epoch seconds of a timestamp string) and `now` models `Date.now()`.
   The asynchronous roster fetch kicked off when the cache is empty only
   mutates the cache for *future* calls and is not part of this call's
   value; it is therefore not modelled.
--------------------------------------------------------------------- -/

/-- `status.temp > 0 ? [{ Name: "CPU", Temperature: status.temp }] : []`
(an undefined `temp` compares false). -/
def tempList : Option Int → List TemperatureReading
  | none => []
  | some t => if 0 < t then [⟨"CPU", t⟩] else []

/-- `typeof status.gpu === "number" ? [status.gpu] : []`. -/
def gpuWrap : GpuField → List Int
  | .num n => [n]
  | _ => []

/-- The dynamic `state` object built from a live-status record, shared by
all three construction sites (utils.ts:365-383, 431-447, 496-514); the
cached-roster site overrides only the `gpu` field. -/
def liveState (st : KomariStatus) : NezhaState :=
  { cpu := st.cpu.getD 0
    mem_used := st.ram.getD 0
    swap_used := st.swap.getD 0
    disk_used := st.disk.getD 0
    net_in_transfer := st.net_total_down.getD 0
    net_out_transfer := st.net_total_up.getD 0
    net_in_speed := st.net_in.getD 0
    net_out_speed := st.net_out.getD 0
    uptime := st.uptime.getD 0
    load_1 := st.load.getD 0
    load_5 := st.load5.getD 0
    load_15 := st.load15.getD 0
    tcp_conn_count := st.connections.getD 0
    udp_conn_count := st.connections_udp.getD 0
    process_count := st.process.getD 0
    temperatures := tempList st.temp
    gpu := gpuWrap st.gpu }

/-- An entity synthesized purely from a live-status record: used both by the
degraded no-roster path (utils.ts:351-396) and for live-only keys appended
after the roster pass (utils.ts:482-526); the two sites build literally the
same object. -/
def freshEntry (pt : String → Int) (uuid : String) (st : KomariStatus) : NezhaServer :=
  { id := uuidToNumber uuid
    name := strOr st.name uuid
    public_note := ""
    last_active := st.time
    country_code :=
      match st.region with
      | none => ""
      | some r => if r = "" then "" else countryFlagToCode r
    display_index := 0
    host :=
      { platform := strOr st.os ""
        platform_version := strOr st.kernel_version ""
        cpu := strWrap st.cpu_name
        gpu := strWrap st.gpu_name
        mem_total := st.ram_total.getD 0
        disk_total := st.disk_total.getD 0
        swap_total := st.swap_total.getD 0
        arch := strOr st.arch ""
        boot_time := pt st.time - st.uptime.getD 0
        version := "" }
    state := liveState st }

/-- One entity of the cached-roster path (utils.ts:406-479): static facts
come from the roster entry, dynamic facts from the matching live-status
record if any, else the all-zero offline literal.  The `gpu` state field is
wrapped only when the roster entry's `gpu_name` is truthy (utils.ts:447). -/
def mergedEntry (pt : String → Int) (server : KomariServer)
    (status : Option KomariStatus) : NezhaServer :=
  { id := uuidToNumber server.uuid
    name := server.name
    public_note := strOr server.public_note ""
    last_active :=
      match status with
      | some st => st.time
      | none => "0000-00-00T00:00:00Z"
    country_code := countryFlagToCode server.region
    display_index := -(server.weight.getD 0)
    host :=
      { platform := server.os
        platform_version := server.kernel_version
        cpu := [server.cpu_name]
        gpu := if truthyStr server.gpu_name then [server.gpu_name.getD ""] else []
        mem_total := server.mem_total
        disk_total := server.disk_total
        swap_total := server.swap_total
        arch := server.arch
        boot_time :=
          match status with
          | some st => pt st.time - st.uptime.getD 0
          | none => 0
        version := "" }
    state :=
      match status with
      | some st =>
          { liveState st with
            gpu := if truthyStr server.gpu_name then gpuWrap st.gpu else [] }
      | none =>
          { cpu := 0, mem_used := 0, swap_used := 0, disk_used := 0
            net_in_transfer := 0, net_out_transfer := 0
            net_in_speed := 0, net_out_speed := 0
            uptime := 0, load_1 := 0, load_5 := 0, load_15 := 0
            tcp_conn_count := 0, udp_conn_count := 0, process_count := 0
            temperatures := [], gpu := [] } }

/-- `statusMap.get(uuid)` on the insertion-ordered entry list. -/
def lookupStatus (k : String) (l : List (String × KomariStatus)) : Option KomariStatus :=
  (l.find? (fun kv => kv.1 == k)).map Prod.snd

/-- `statusMap.has(uuid)`. -/
def hasKey (k : String) (l : List (String × KomariStatus)) : Bool :=
  l.any (fun kv => kv.1 == k)

/-- The cached-roster loop (utils.ts:406-479): walk the cache in its stored
order; for each entry look its uuid up in the remaining status map and
delete a found key so the later append stage does not duplicate it.
Returns the roster-derived entities and the remaining (unconsumed) live
entries.  A JS Map has unique keys, so `delete` and key-filtering agree. -/
def reconcileRoster (pt : String → Int) :
    List KomariServer → List (String × KomariStatus) →
      List NezhaServer × List (String × KomariStatus)
  | [], live => ([], live)
  | server :: rest, live =>
    let status := lookupStatus server.uuid live
    let live' := if hasKey server.uuid live
      then live.filter (fun kv => kv.1 != server.uuid) else live
    let out := reconcileRoster pt rest live'
    (mergedEntry pt server status :: out.1, out.2)

/-- src/lib/utils.ts:340-532, with the raw mapping and the cache passed
explicitly (the source reads the mapping from its argument via
`Object.entries` and the cache from the module-level `km_servers_cache`). -/
def komariToNezhaWebsocketResponse (pt : String → Int) (now : Int)
    (cache : List KomariServer) (data : List (String × KomariStatus)) :
    NezhaWebsocketResponse :=
  if cache.isEmpty then
    { now := now, servers := data.map (fun kv => freshEntry pt kv.1 kv.2) }
  else
    let out := reconcileRoster pt cache data
    { now := now
      servers := out.1 ++ out.2.map (fun kv => freshEntry pt kv.1 kv.2) }

/- ---------------------------------------------------------------------
   RPC2 transport client (src/lib/rpc2.ts)
--------------------------------------------------------------------- -/

/-- The five connection states (rpc2.ts:552-558). -/
inductive RPC2ConnectionState
  | disconnected
  | connecting
  | connected
  | reconnecting
  | error
deriving DecidableEq

/-- Outcome and attempt count of one `call` dispatch.  `wsAttempts` and
`httpAttempts` count how many times each carrier was tried during the one
dispatch. -/
structure CallTrace (α : Type) where
  result : Except String α
  wsAttempts : Nat
  httpAttempts : Nat

/-- `call` dispatch (rpc2.ts:282-312).  `wsOutcome` / `httpOutcome` are the
results the two carriers would produce if attempted.  The non-blocking
`autoConnect` kick at the top of the source never changes the dispatch
decision of the current call: it can only move DISCONNECTED to CONNECTING,
neither of which is CONNECTED, so it is not part of the dispatch value.
The inner catch of the source rethrows `httpErr` unchanged, so a failed
fallback surfaces the HTTP error, never the WebSocket one. -/
def call {α : Type} (st : RPC2ConnectionState)
    (wsOutcome httpOutcome : Except String α) : CallTrace α :=
  if st = .connected then
    match wsOutcome with
    | .ok v => { result := .ok v, wsAttempts := 1, httpAttempts := 0 }
    | .error _ => { result := httpOutcome, wsAttempts := 1, httpAttempts := 1 }
  else
    { result := httpOutcome, wsAttempts := 0, httpAttempts := 1 }

/-- One entry of the correlation table, as far as `disconnect` needs it:
its id and whether a timeout handle is attached (rpc2.ts:10-14). -/
structure PendingCall where
  id : Nat
  hasTimeout : Bool
deriving DecidableEq

/-- The host-visible effects of `clearPendingRequests`: which timeout
handles were cancelled and which rejections were delivered (id paired with
the error message). -/
structure ClearEffects where
  clearedTimers : List Nat
  rejections : List (Nat × String)
deriving DecidableEq

/-- rpc2.ts:392-400: iterate the table, clear each entry's timeout if it
has one, reject each with the given error, then clear the table. -/
def clearPendingRequests (pending : List PendingCall) (msg : String) :
    List PendingCall × ClearEffects :=
  ([],
   { clearedTimers := (pending.filter (fun p => p.hasTimeout)).map (fun p => p.id)
     rejections := pending.map (fun p => (p.id, msg)) })

/-- The client's mutable fields that the state-machine claims speak about.
Timer handles (`reconnectTimeout`, `heartbeatInterval`) and the socket are
modelled by Booleans saying whether one is currently set. -/
structure RPC2Client where
  connectionState : RPC2ConnectionState
  requestId : Nat
  pending : List PendingCall
  reconnectAttempts : Nat
  reconnectTimeoutSet : Bool
  heartbeatSet : Bool
  autoReconnect : Bool
  enableHeartbeat : Bool
  maxReconnectAttempts : Nat
  wsPresent : Bool
deriving DecidableEq

/-- rpc2.ts:128-148: disable auto-reconnect, cancel the reconnect and
heartbeat timers, close and drop the socket, set DISCONNECTED, then clear
the pending table rejecting everything with the fixed error. -/
def disconnect (c : RPC2Client) : RPC2Client × ClearEffects :=
  let c1 := { c with autoReconnect := false, reconnectTimeoutSet := false,
                     heartbeatSet := false, wsPresent := false,
                     connectionState := .disconnected }
  let cleared := clearPendingRequests c1.pending "连接已断开"
  ({ c1 with pending := cleared.1 }, cleared.2)

/-- rpc2.ts:405-430: no-op unless heartbeat is enabled; otherwise clear any
previous heartbeat timer and install a fresh one. -/
def startHeartbeat (c : RPC2Client) : RPC2Client :=
  if c.enableHeartbeat then { c with heartbeatSet := true } else c

/-- rpc2.ts:435-440. -/
def stopHeartbeat (c : RPC2Client) : RPC2Client :=
  { c with heartbeatSet := false }

/-- The `onopen` handler (rpc2.ts:323-328): CONNECTED, reset the attempt
counter, start the heartbeat. -/
def onOpen (c : RPC2Client) : RPC2Client :=
  startHeartbeat { c with connectionState := .connected, reconnectAttempts := 0 }

/-- rpc2.ts:442-452: increment the attempt counter, enter RECONNECTING and
schedule the delayed reconnect. -/
def attemptReconnect (c : RPC2Client) : RPC2Client :=
  { c with reconnectAttempts := c.reconnectAttempts + 1,
           connectionState := .reconnecting,
           reconnectTimeoutSet := true }

/-- The `onclose` handler (rpc2.ts:340-349): DISCONNECTED, stop the
heartbeat, and reconnect only while auto-reconnect is on and the attempt
counter is still below the configured maximum. -/
def onClose (c : RPC2Client) : RPC2Client :=
  let c1 := stopHeartbeat { c with connectionState := .disconnected }
  if c1.autoReconnect ∧ c1.reconnectAttempts < c1.maxReconnectAttempts then
    attemptReconnect c1
  else c1

/-- The synchronous prefix of `connect` (rpc2.ts:65-77): return immediately
when already CONNECTED or CONNECTING, otherwise enter CONNECTING and open a
new socket.  The Boolean reports whether a socket was opened. -/
def connectStep (c : RPC2Client) : RPC2Client × Bool :=
  if c.connectionState = .connected ∨ c.connectionState = .connecting then
    (c, false)
  else
    ({ c with connectionState := .connecting, wsPresent := true }, true)

/-- rpc2.ts:388-390: `return ++this.requestId`; gives the new counter value
and the id handed to the request. -/
def generateRequestId (n : Nat) : Nat × Nat :=
  (n + 1, n + 1)

/-- The ids produced by `k` successive correlated requests starting from
counter value `n`. -/
def genIds : Nat → Nat → List Nat
  | _, 0 => []
  | n, Nat.succ k =>
    let g := generateRequestId n
    g.2 :: genIds g.1 k

/-- The `!data.id` guard of `handleMessage` (rpc2.ts:358) on a numeric or
absent id: absent/null ids and the number 0 are falsy. -/
def jsFalsyId : Option Nat → Bool
  | none => true
  | some n => n == 0

/-- The events that touch the correlation table while connected:
registering a fresh correlated request, an inbound response message, and a
request-timeout timer firing.  Every removal path of the source clears the
entry's timer, so timer-active is equivalent to table membership and a
`timeoutFire` for an absent id is the fired-after-clear case that the host
guarantees never runs; it is modelled as a no-op. -/
inductive RPCEvent
  | register (i : Nat)
  | response (id : Option Nat) (isError : Bool)
  | timeoutFire (i : Nat)
deriving DecidableEq

/-- One settlement of a pending call. -/
inductive Settle
  | resolved (i : Nat)
  | rejectedError (i : Nat)
  | rejectedTimeout (i : Nat)
deriving DecidableEq

def settleId : Settle → Nat
  | .resolved i => i
  | .rejectedError i => i
  | .rejectedTimeout i => i

/-- One step of the correlation table.  `response` follows `handleMessage`
(rpc2.ts:357-374): discard falsy ids, discard unmatched ids, otherwise
remove the entry (clearing its timer) and settle it.  `timeoutFire` follows
the timeout callback (rpc2.ts:176-179): remove the entry and reject.
`register` follows rpc2.ts:181-185; ids strictly increase, so the
registered id is never already present (the guard keeps the model total). -/
def stepEvent (t : List Nat) : RPCEvent → List Nat × Option Settle
  | .register i => (if i ∈ t then t else i :: t, none)
  | .response id isError =>
    if jsFalsyId id then (t, none)
    else
      let i := id.getD 0
      if i ∈ t then
        (t.erase i, some (if isError then .rejectedError i else .resolved i))
      else (t, none)
  | .timeoutFire i =>
    if i ∈ t then (t.erase i, some (.rejectedTimeout i)) else (t, none)

/-- Run a sequence of events, collecting the settlements in order. -/
def runEvents (t : List Nat) : List RPCEvent → List Nat × List Settle
  | [] => (t, [])
  | e :: es =>
    let s := stepEvent t e
    let r := runEvents s.1 es
    (r.1, s.2.toList ++ r.2)

/-- How many settlements in `ss` concern id `i`. -/
def countSettles (i : Nat) (ss : List Settle) : Nat :=
  ss.countP (fun s => settleId s == i)

/-- How many `register i` events a trace contains. -/
def registrations (i : Nat) (es : List RPCEvent) : Nat :=
  es.countP (fun e =>
    match e with
    | .register j => j == i
    | _ => false)

/- ---------------------------------------------------------------------
   Reconciler lemmas
--------------------------------------------------------------------- -/

theorem reconcile_fst_length (pt : String → Int) (cache : List KomariServer)
    (live : List (String × KomariStatus)) :
    (reconcileRoster pt cache live).1.length = cache.length := by
  induction cache generalizing live with
  | nil => rfl
  | cons s rest ih => simp [reconcileRoster, ih]

/-- Deleting consumed keys step by step amounts to filtering the live list
down to the keys no cache entry carries. -/
theorem reconcile_snd_eq_filter (pt : String → Int) (cache : List KomariServer)
    (live : List (String × KomariStatus)) :
    (reconcileRoster pt cache live).2
      = live.filter (fun kv => cache.all (fun s => kv.1 != s.uuid)) := by
  induction cache generalizing live with
  | nil => simp [reconcileRoster]
  | cons s rest ih =>
    have hstep : (if hasKey s.uuid live
        then live.filter (fun kv => kv.1 != s.uuid) else live)
        = live.filter (fun kv => kv.1 != s.uuid) := by
      by_cases h : hasKey s.uuid live = true
      · simp [h]
      · simp only [h, if_neg, Bool.false_eq_true, not_false_eq_true, if_false]
        refine (List.filter_eq_self.mpr ?_).symm
        intro kv hm
        simp only [hasKey, List.any_eq_true, not_exists, not_and] at h
        have := h kv hm
        simp only [bne_iff_ne, ne_eq]
        intro he
        exact this (beq_iff_eq.mpr he)
    simp only [reconcileRoster, hstep, ih, List.filter_filter]
    refine List.filter_congr ?_
    intro kv _
    simp [Bool.and_comm]

/-- The `j`-th roster-derived entity is the merged image of the `j`-th cache
entry, looked up in what remains of the live list after the first `j`
cache entries consumed their keys. -/
theorem reconcile_fst_getElem (pt : String → Int) (cache : List KomariServer)
    (live : List (String × KomariStatus)) (j : Nat) (s : KomariServer)
    (hj : cache[j]? = some s) :
    (reconcileRoster pt cache live).1[j]?
      = some (mergedEntry pt s
          (lookupStatus s.uuid ((reconcileRoster pt (cache.take j) live).2))) := by
  induction cache generalizing live j with
  | nil => simp at hj
  | cons s0 rest ih =>
    cases j with
    | zero =>
      simp only [List.getElem?_cons_zero, Option.some.injEq] at hj
      subst hj
      simp [reconcileRoster]
    | succ j =>
      simp only [List.getElem?_cons_succ] at hj
      simpa [reconcileRoster, List.take_succ_cons] using
        ih (if hasKey s0.uuid live
          then live.filter (fun kv => kv.1 != s0.uuid) else live) j hj

/-- A key absent from the live list is still absent after any filtering. -/
theorem lookupStatus_filter_none (u : String) (live : List (String × KomariStatus))
    (p : String × KomariStatus → Bool) (h : lookupStatus u live = none) :
    lookupStatus u (live.filter p) = none := by
  simp only [lookupStatus, Option.map_eq_none', List.find?_eq_none] at h ⊢
  intro kv hm
  exact h kv (List.mem_of_mem_filter hm)

/-- Filtering that keeps every entry whose key is `u` does not change the
lookup of `u`. -/
theorem lookupStatus_filter_of_keys (u : String)
    (live : List (String × KomariStatus)) (p : String × KomariStatus → Bool)
    (h : ∀ kv ∈ live, kv.1 = u → p kv = true) :
    lookupStatus u (live.filter p) = lookupStatus u live := by
  induction live with
  | nil => rfl
  | cons kv rest ih =>
    have hrest : ∀ kv' ∈ rest, kv'.1 = u → p kv' = true := fun kv' hm he =>
      h kv' (List.mem_cons_of_mem _ hm) he
    by_cases hk : kv.1 = u
    · have hp : p kv = true := h kv (List.mem_cons_self _ _) hk
      have hpred : (kv.1 == u) = true := beq_iff_eq.mpr hk
      rw [List.filter_cons, if_pos hp]
      simp only [lookupStatus, List.find?_cons, hpred]
    · have hpred : (kv.1 == u) = false := by
        simpa using hk
      by_cases hp : p kv = true
      · rw [List.filter_cons, if_pos hp]
        simp only [lookupStatus, List.find?_cons, hpred]
        exact ih hrest
      · rw [List.filter_cons, if_neg hp]
        simp only [lookupStatus, List.find?_cons, hpred]
        exact ih hrest

/-- The uuids of the cache entries before position `j` all differ from the
uuid at position `j` when the cache uuids are distinct. -/
theorem take_uuid_ne (cache : List KomariServer) (j : Nat) (s : KomariServer)
    (hj : cache[j]? = some s) (hnc : (cache.map KomariServer.uuid).Nodup) :
    ∀ s' ∈ cache.take j, (s'.uuid != s.uuid) = true := by
  intro s' hs'
  have hsplit := (List.take_append_drop j cache).symm
  rw [hsplit, List.map_append, List.nodup_append] at hnc
  have hmem₁ : s'.uuid ∈ (cache.take j).map KomariServer.uuid :=
    List.mem_map_of_mem _ hs'
  have hdrop : s ∈ cache.drop j := by
    have h0 : (cache.drop j)[0]? = some s := by
      rw [List.getElem?_drop]; simpa using hj
    exact List.getElem?_mem h0
  have hmem₂ : s.uuid ∈ (cache.drop j).map KomariServer.uuid :=
    List.mem_map_of_mem _ hdrop
  have := hnc.2.2 hmem₁
  simp only [bne_iff_ne, ne_eq]
  intro he
  exact this (he ▸ hmem₂)

/-- With a non-empty cache the output is the roster-derived entities
followed by the synthesized live-only entities. -/
theorem komari_servers_eq (pt : String → Int) (now : Int)
    (cache : List KomariServer) (data : List (String × KomariStatus))
    (hc : cache ≠ []) :
    (komariToNezhaWebsocketResponse pt now cache data).servers
      = (reconcileRoster pt cache data).1
        ++ (reconcileRoster pt cache data).2.map (fun kv => freshEntry pt kv.1 kv.2) := by
  have hne : cache.isEmpty = false := by
    cases cache with
    | nil => exact absurd rfl hc
    | cons s rest => rfl
  simp [komariToNezhaWebsocketResponse, hne]

/-- A list splits into the part kept and the part dropped by a filter. -/
theorem length_filter_split {α : Type} (p : α → Bool) (l : List α) :
    l.length = (l.filter p).length + (l.filter (fun a => !(p a))).length := by
  induction l with
  | nil => rfl
  | cons a l ih =>
    cases h : p a <;> simp [List.filter_cons, h, ih] <;> omega

/-- If the live keys are distinct, at most `cache.length` of them can match
some cache uuid. -/
theorem matched_length_le (cache : List KomariServer)
    (data : List (String × KomariStatus)) (hnd : (data.map Prod.fst).Nodup) :
    (data.filter (fun kv => !(cache.all (fun s => kv.1 != s.uuid)))).length
      ≤ cache.length := by
  have hsub : List.Sublist
      ((data.filter
        (fun kv => !(cache.all (fun s => kv.1 != s.uuid)))).map Prod.fst)
      (data.map Prod.fst) :=
    (List.filter_sublist data).map _
  have hnodup := hsub.nodup hnd
  have hsubset : (data.filter
        (fun kv => !(cache.all (fun s => kv.1 != s.uuid)))).map Prod.fst
      ⊆ cache.map KomariServer.uuid := by
    intro k hk
    obtain ⟨kv, hkv, rfl⟩ := List.mem_map.mp hk
    have hmem := (List.mem_filter.mp hkv).2
    simp only [Bool.not_eq_true', List.all_eq_false, bne_iff_ne, ne_eq,
      not_not] at hmem
    obtain ⟨s, hs, he⟩ := hmem
    exact List.mem_map.mpr ⟨s, hs, he.symm⟩
  have hlen := (hnodup.subperm hsubset).length_le
  simpa using hlen

/- ---------------------------------------------------------------------
   Concrete fixtures for witnesses and counterexamples
--------------------------------------------------------------------- -/

/-- Timestamp-parsing stand-in for concrete instances. -/
def ptZero : String → Int := fun _ => 0

/-- A live-status record with every optional field absent. -/
def stBlank : KomariStatus :=
  { os := none, kernel_version := none, cpu_name := none, gpu_name := none
    ram_total := none, disk_total := none, swap_total := none, arch := none
    time := "2024-01-01T00:00:00Z", uptime := none, cpu := none, ram := none
    swap := none, disk := none, net_total_down := none, net_total_up := none
    net_in := none, net_out := none, load := none, load5 := none, load15 := none
    connections := none, connections_udp := none, process := none, temp := none
    gpu := .absent, name := none, region := none }

/-- A basic roster entry. -/
def serverBlank : KomariServer :=
  { uuid := "a", os := "linux", kernel_version := "6.1", cpu_name := "c"
    gpu_name := none, mem_total := 1, disk_total := 1, swap_total := 0
    arch := "x86_64", name := "A", public_note := none, region := ""
    weight := some 1 }

/-- A two-entry roster whose stored order is by ascending weight. -/
def cacheAsc : List KomariServer :=
  [{ serverBlank with uuid := "a", weight := some 1 },
   { serverBlank with uuid := "b", weight := some 5 }]

/-- A roster entry without a GPU name. -/
def serverNoGpu : KomariServer := { serverBlank with uuid := "g", gpu_name := none }

/-- A live-status record carrying a numeric GPU utilization. -/
def stGpuNum : KomariStatus := { stBlank with gpu := .num 7 }

/- ---------------------------------------------------------------------
   Claim theorems — reconciler
--------------------------------------------------------------------- -/

/-- C2: with a cached roster and a raw live-status mapping (distinct roster
uuids, distinct live keys), the reconciliation output is exactly the
roster-derived entities (one per roster entry, each merged with the live
record found under its uuid) followed by one synthesized entity per
live key that matches no roster uuid; hence the output length is at least
the roster length and at least the live-feed key count, every roster key
appears exactly once and every live-feed key exactly once. -/
theorem claim_reconcile_exactly_once (pt : String → Int) (now : Int)
    (cache : List KomariServer) (data : List (String × KomariStatus))
    (hc : cache ≠ [])
    (hnd : (data.map Prod.fst).Nodup)
    (hnc : (cache.map KomariServer.uuid).Nodup) :
    (komariToNezhaWebsocketResponse pt now cache data).servers
        = (reconcileRoster pt cache data).1
          ++ (reconcileRoster pt cache data).2.map (fun kv => freshEntry pt kv.1 kv.2)
    ∧ (reconcileRoster pt cache data).1.length = cache.length
    ∧ (reconcileRoster pt cache data).2
        = data.filter (fun kv => cache.all (fun s => kv.1 != s.uuid))
    ∧ cache.length ≤ (komariToNezhaWebsocketResponse pt now cache data).servers.length
    ∧ data.length ≤ (komariToNezhaWebsocketResponse pt now cache data).servers.length
    ∧ ∀ (j : Nat) (s : KomariServer), cache[j]? = some s →
        (reconcileRoster pt cache data).1[j]?
          = some (mergedEntry pt s (lookupStatus s.uuid data)) := by
  have hserv := komari_servers_eq pt now cache data hc
  have hlen := reconcile_fst_length pt cache data
  have hsnd := reconcile_snd_eq_filter pt cache data
  have htotal : (komariToNezhaWebsocketResponse pt now cache data).servers.length
      = cache.length
        + (data.filter (fun kv => cache.all (fun s => kv.1 != s.uuid))).length := by
    rw [hserv, List.length_append, hlen, List.length_map, hsnd]
  refine ⟨hserv, hlen, hsnd, ?_, ?_, ?_⟩
  · rw [htotal]; omega
  · have hsplit := length_filter_split
      (fun kv : String × KomariStatus => cache.all (fun s => kv.1 != s.uuid)) data
    have hm := matched_length_le cache data hnd
    rw [htotal]; omega
  · intro j s hj
    rw [reconcile_fst_getElem pt cache data j s hj, reconcile_snd_eq_filter]
    have hkeep : ∀ kv ∈ data, kv.1 = s.uuid →
        (fun kv : String × KomariStatus =>
          (cache.take j).all (fun s' => kv.1 != s'.uuid)) kv = true := by
      intro kv _ he
      simp only [List.all_eq_true]
      intro s' hs'
      have hne := take_uuid_ne cache j s hj hnc s' hs'
      simp only [bne_iff_ne, ne_eq] at hne ⊢
      rw [he]
      exact fun hcon => hne hcon.symm
    rw [lookupStatus_filter_of_keys s.uuid data _ hkeep]

/-- C2 witness: a one-entry roster `[serverBlank]` (uuid "a") against the
live mapping `{a, c}`: both length bounds hold and the unmatched key "c"
is exactly what remains for the append stage. -/
theorem claim_reconcile_exactly_once_witness :
    [serverBlank].length
        ≤ (komariToNezhaWebsocketResponse ptZero 0 [serverBlank]
            [("a", stBlank), ("c", stBlank)]).servers.length
    ∧ [("a", stBlank), ("c", stBlank)].length
        ≤ (komariToNezhaWebsocketResponse ptZero 0 [serverBlank]
            [("a", stBlank), ("c", stBlank)]).servers.length
    ∧ (reconcileRoster ptZero [serverBlank] [("a", stBlank), ("c", stBlank)]).2
        = [("c", stBlank)] := by
  have h := claim_reconcile_exactly_once ptZero 0 [serverBlank]
    [("a", stBlank), ("c", stBlank)] (by decide) (by decide) (by decide)
  refine ⟨h.2.2.2.1, h.2.2.2.2.1, ?_⟩
  rw [h.2.2.1]
  decide

/-- C3 counterexample: with the cached roster `cacheAsc`, stored as
[weight 1, weight 5], and an empty live feed, the roster-derived entities
come out in weights order [1, 5] — NOT sorted by descending weight.  The
function does not reorder the cache; it only emits
`display_index = -weight` for the display layer to sort. -/
theorem claim_roster_order_cex :
    ((komariToNezhaWebsocketResponse ptZero 0 cacheAsc []).servers.map
        (fun e => -e.display_index)) = [1, 5]
    ∧ ¬ List.Sorted (· ≥ ·)
        ((komariToNezhaWebsocketResponse ptZero 0 cacheAsc []).servers.map
          (fun e => -e.display_index)) := by
  constructor
  · rfl
  · intro h
    have h' : List.Sorted (fun x y : Int => x ≥ y) [1, 5] := h
    have h15 : (1 : Int) ≥ 5 := (List.sorted_cons.mp h').1 5 (by simp)
    omega

/-- C3 amended: the reconciliation output lists the roster-derived entities
in the roster cache's stored order (entity `j` is derived from cache entry
`j`; the function performs no sorting), each carrying
`display_index = -weight` so that a consumer ordering by ascending
`display_index` obtains descending weight; live-feed-only entities are
appended after all roster-derived entities. -/
theorem claim_roster_order_amended (pt : String → Int) (now : Int)
    (cache : List KomariServer) (data : List (String × KomariStatus))
    (hc : cache ≠ []) :
    (komariToNezhaWebsocketResponse pt now cache data).servers
        = (reconcileRoster pt cache data).1
          ++ (reconcileRoster pt cache data).2.map (fun kv => freshEntry pt kv.1 kv.2)
    ∧ (reconcileRoster pt cache data).1.length = cache.length
    ∧ ∀ (j : Nat) (s : KomariServer), cache[j]? = some s →
        ∃ status, (reconcileRoster pt cache data).1[j]?
            = some (mergedEntry pt s status)
          ∧ (mergedEntry pt s status).display_index = -(s.weight.getD 0) := by
  refine ⟨komari_servers_eq pt now cache data hc,
    reconcile_fst_length pt cache data, ?_⟩
  intro j s hj
  exact ⟨_, reconcile_fst_getElem pt cache data j s hj, rfl⟩

/-- C3 amended witness: instantiated at `cacheAsc` with an empty live feed. -/
theorem claim_roster_order_amended_witness :
    (komariToNezhaWebsocketResponse ptZero 0 cacheAsc []).servers
        = (reconcileRoster ptZero cacheAsc []).1
          ++ (reconcileRoster ptZero cacheAsc []).2.map
              (fun kv => freshEntry ptZero kv.1 kv.2)
    ∧ (reconcileRoster ptZero cacheAsc []).1.length = cacheAsc.length := by
  have h := claim_roster_order_amended ptZero 0 cacheAsc [] (by decide)
  exact ⟨h.1, h.2.1⟩

/-- C7: a roster entry whose uuid has no record in the live mapping comes
out with the all-zero dynamic state (zero cpu, memory, swap, disk, network
speeds and transfers, uptime, loads, connection counts, process count,
empty temperature and GPU lists) and the empty last-active sentinel
"0000-00-00T00:00:00Z" (which the UI treats as "never active"). -/
theorem claim_offline_entry (pt : String → Int) (now : Int)
    (cache : List KomariServer) (data : List (String × KomariStatus))
    (j : Nat) (s : KomariServer) (hc : cache ≠ [])
    (hj : cache[j]? = some s)
    (habs : lookupStatus s.uuid data = none) :
    ((komariToNezhaWebsocketResponse pt now cache data).servers[j]?).map
        NezhaServer.state
      = some { cpu := 0, mem_used := 0, swap_used := 0, disk_used := 0
               net_in_transfer := 0, net_out_transfer := 0
               net_in_speed := 0, net_out_speed := 0
               uptime := 0, load_1 := 0, load_5 := 0, load_15 := 0
               tcp_conn_count := 0, udp_conn_count := 0, process_count := 0
               temperatures := [], gpu := [] }
    ∧ ((komariToNezhaWebsocketResponse pt now cache data).servers[j]?).map
        NezhaServer.last_active = some "0000-00-00T00:00:00Z" := by
  have hjlt : j < cache.length := by
    have := List.getElem?_eq_some_iff.mp hj
    exact this.1
  have hget := reconcile_fst_getElem pt cache data j s hj
  have habs' : lookupStatus s.uuid ((reconcileRoster pt (cache.take j) data).2)
      = none := by
    rw [reconcile_snd_eq_filter]
    exact lookupStatus_filter_none _ _ _ habs
  rw [habs'] at hget
  have happ : (komariToNezhaWebsocketResponse pt now cache data).servers[j]?
      = (reconcileRoster pt cache data).1[j]? := by
    rw [komari_servers_eq pt now cache data hc]
    exact List.getElem?_append_left (by rw [reconcile_fst_length]; exact hjlt)
  rw [happ, hget]
  exact ⟨rfl, rfl⟩

/-- C7 witness: the single roster entry `serverBlank` with an empty live
feed yields the zero state and the empty last-active sentinel. -/
theorem claim_offline_entry_witness :
    ((komariToNezhaWebsocketResponse ptZero 0 [serverBlank] []).servers[0]?).map
        NezhaServer.state
      = some { cpu := 0, mem_used := 0, swap_used := 0, disk_used := 0
               net_in_transfer := 0, net_out_transfer := 0
               net_in_speed := 0, net_out_speed := 0
               uptime := 0, load_1 := 0, load_5 := 0, load_15 := 0
               tcp_conn_count := 0, udp_conn_count := 0, process_count := 0
               temperatures := [], gpu := [] }
    ∧ ((komariToNezhaWebsocketResponse ptZero 0 [serverBlank] []).servers[0]?).map
        NezhaServer.last_active = some "0000-00-00T00:00:00Z" :=
  claim_offline_entry ptZero 0 [serverBlank] [] 0 serverBlank
    (by decide) rfl rfl

/-- C8 counterexample: in the cached-roster pass, a live-status record with
the numeric GPU field 7 matched against a roster entry with no GPU name
produces an EMPTY `state.gpu` — not the single-element list the claim
demands for every pass: the wrapping there is guarded by a truthy
`gpu_name` on the roster entry (utils.ts:447). -/
theorem claim_gpu_wrap_cex :
    ((komariToNezhaWebsocketResponse ptZero 0 [serverNoGpu]
        [("g", stGpuNum)]).servers.map (fun e => e.state.gpu)) = [[]]
    ∧ ([] : List Int) ≠ [7] := by
  exact ⟨rfl, by decide⟩

/-- C8 amended: a live-status record with a missing or zero temperature
yields an empty temperatures list in both construction shapes (never a
zero reading); a numeric GPU utilization is wrapped into a single-element
list in the live-only entity shape unconditionally, while in the
cached-roster merge the wrapping additionally requires the roster entry to
declare a truthy GPU name, and yields an empty list otherwise. -/
theorem claim_temp_gpu_policy (pt : String → Int) (s : KomariServer)
    (u : String) (st : KomariStatus) :
    ((st.temp = none ∨ st.temp = some 0) →
        (freshEntry pt u st).state.temperatures = []
        ∧ (mergedEntry pt s (some st)).state.temperatures = [])
    ∧ (∀ n : Int, st.gpu = .num n →
        (freshEntry pt u st).state.gpu = [n]
        ∧ (mergedEntry pt s (some st)).state.gpu
            = (if truthyStr s.gpu_name then [n] else [])) := by
  constructor
  · rintro (h | h) <;>
      simp [freshEntry, mergedEntry, liveState, tempList, h]
  · intro n hn
    constructor
    · simp [freshEntry, liveState, gpuWrap, hn]
    · simp [mergedEntry, liveState, gpuWrap, hn]

/-- C8 amended witness: a status with no temperature and numeric GPU 3
yields no temperature reading and the wrapped list [3] in the live-only
shape, and the empty list when merged with a roster entry lacking a GPU
name. -/
theorem claim_temp_gpu_policy_witness :
    (freshEntry ptZero "u" { stBlank with gpu := .num 3 }).state.temperatures = []
    ∧ (freshEntry ptZero "u" { stBlank with gpu := .num 3 }).state.gpu = [3]
    ∧ (mergedEntry ptZero serverBlank
        (some { stBlank with gpu := .num 3 })).state.gpu = [] := by
  have h := claim_temp_gpu_policy ptZero serverBlank "u"
    { stBlank with gpu := .num 3 }
  refine ⟨(h.1 (Or.inl rfl)).1, (h.2 3 rfl).1, ?_⟩
  have h2 := (h.2 3 rfl).2
  simpa [serverBlank, truthyStr] using h2

/- ---------------------------------------------------------------------
   Client lemmas and fixtures
--------------------------------------------------------------------- -/

/-- Every table step preserves distinctness of the registered ids. -/
theorem stepEvent_nodup (t : List Nat) (e : RPCEvent) (h : t.Nodup) :
    (stepEvent t e).1.Nodup := by
  cases e with
  | register i =>
    by_cases hi : i ∈ t
    · simpa [stepEvent, hi] using h
    · simp only [stepEvent, hi, if_neg, if_false]
      exact List.nodup_cons.mpr ⟨hi, h⟩
  | response id isError =>
    by_cases hf : jsFalsyId id = true
    · simpa [stepEvent, hf] using h
    · by_cases hm : id.getD 0 ∈ t
      · simpa [stepEvent, hf, hm] using h.erase _
      · simpa [stepEvent, hf, hm] using h
  | timeoutFire i =>
    by_cases hm : i ∈ t
    · simpa [stepEvent, hm] using h.erase _
    · simpa [stepEvent, hm] using h

theorem countSettles_append (i : Nat) (a b : List Settle) :
    countSettles i (a ++ b) = countSettles i a + countSettles i b := by
  simp [countSettles, List.countP_append]

/-- Core at-most-once bound: a run settles a given id at most once per
occurrence — once for an initial table entry plus once per registration. -/
theorem runEvents_settle_bound (es : List RPCEvent) (t : List Nat) (i : Nat)
    (h : t.Nodup) :
    countSettles i (runEvents t es).2
      ≤ (if i ∈ t then 1 else 0) + registrations i es := by
  induction es generalizing t with
  | nil => simp [runEvents, countSettles, registrations]
  | cons e es ih =>
    have hrec := ih (stepEvent t e).1 (stepEvent_nodup t e h)
    have hsplit : countSettles i (runEvents t (e :: es)).2
        = countSettles i (stepEvent t e).2.toList
          + countSettles i (runEvents (stepEvent t e).1 es).2 := by
      simp [runEvents, countSettles, List.countP_append]
    rw [hsplit]
    cases e with
    | register j =>
      have hhead : countSettles i (stepEvent t (RPCEvent.register j)).2.toList
          = 0 := by
        simp [stepEvent, countSettles]
      have hreg : registrations i (RPCEvent.register j :: es)
          = registrations i es + (if j = i then 1 else 0) := by
        by_cases hji : j = i <;> simp [registrations, List.countP_cons, hji]
      have hmem : (if i ∈ (stepEvent t (RPCEvent.register j)).1 then 1 else 0)
          ≤ (if i ∈ t then 1 else 0) + (if j = i then 1 else 0) := by
        show (if i ∈ (if j ∈ t then t else j :: t) then 1 else 0) ≤ _
        by_cases hm : j ∈ t
        · simp [hm]
        · by_cases hji : j = i
          · subst hji; simp [hm, List.mem_cons]
          · have hij : ¬ i = j := fun hh => hji hh.symm
            simp [hm, List.mem_cons, hij]
      rw [hhead, hreg]
      omega
    | response id isError =>
      have hreg : registrations i (RPCEvent.response id isError :: es)
          = registrations i es := by
        simp [registrations, List.countP_cons]
      rw [hreg]
      by_cases hf : jsFalsyId id = true
      · have hstep1 : (stepEvent t (RPCEvent.response id isError)).1 = t := by
          simp [stepEvent, hf]
        have hstep2 : (stepEvent t (RPCEvent.response id isError)).2 = none := by
          simp [stepEvent, hf]
        rw [hstep1] at hrec
        rw [hstep1, hstep2]
        simpa [countSettles] using hrec
      · by_cases hm : id.getD 0 ∈ t
        · have hstep1 : (stepEvent t (RPCEvent.response id isError)).1
              = t.erase (id.getD 0) := by
            simp [stepEvent, hf, hm]
          have hstep2 : (stepEvent t (RPCEvent.response id isError)).2
              = some (if isError then Settle.rejectedError (id.getD 0)
                      else Settle.resolved (id.getD 0)) := by
            simp [stepEvent, hf, hm]
          rw [hstep1] at hrec
          rw [hstep1, hstep2]
          have hhead : countSettles i
              ((some (if isError then Settle.rejectedError (id.getD 0)
                      else Settle.resolved (id.getD 0))).toList)
              = if id.getD 0 = i then 1 else 0 := by
            cases isError <;> by_cases hii : id.getD 0 = i <;>
              simp [countSettles, List.countP_cons, settleId, hii]
          rw [hhead]
          by_cases hii : id.getD 0 = i
          · rw [hii] at hrec hm ⊢
            have hni : i ∉ t.erase i := h.not_mem_erase
            rw [if_neg hni] at hrec
            rw [if_pos rfl, if_pos hm]
            omega
          · have hij : i ≠ id.getD 0 := fun hh => hii hh.symm
            simp only [List.mem_erase_of_ne hij] at hrec
            rw [if_neg hii]
            omega
        · have hstep1 : (stepEvent t (RPCEvent.response id isError)).1 = t := by
            simp [stepEvent, hf, hm]
          have hstep2 : (stepEvent t (RPCEvent.response id isError)).2 = none := by
            simp [stepEvent, hf, hm]
          rw [hstep1] at hrec
          rw [hstep1, hstep2]
          simpa [countSettles] using hrec
    | timeoutFire j =>
      have hreg : registrations i (RPCEvent.timeoutFire j :: es)
          = registrations i es := by
        simp [registrations, List.countP_cons]
      rw [hreg]
      by_cases hm : j ∈ t
      · have hstep1 : (stepEvent t (RPCEvent.timeoutFire j)).1 = t.erase j := by
          simp [stepEvent, hm]
        have hstep2 : (stepEvent t (RPCEvent.timeoutFire j)).2
            = some (Settle.rejectedTimeout j) := by
          simp [stepEvent, hm]
        rw [hstep1] at hrec
        rw [hstep1, hstep2]
        have hhead : countSettles i ((some (Settle.rejectedTimeout j)).toList)
            = if j = i then 1 else 0 := by
          by_cases hii : j = i <;> simp [countSettles, List.countP_cons, settleId, hii]
        rw [hhead]
        by_cases hii : j = i
        · rw [hii] at hrec hm ⊢
          have hni : i ∉ t.erase i := h.not_mem_erase
          rw [if_neg hni] at hrec
          rw [if_pos rfl, if_pos hm]
          omega
        · have hij : i ≠ j := fun hh => hii hh.symm
          simp only [List.mem_erase_of_ne hij] at hrec
          rw [if_neg hii]
          omega
      · have hstep1 : (stepEvent t (RPCEvent.timeoutFire j)).1 = t := by
          simp [stepEvent, hm]
        have hstep2 : (stepEvent t (RPCEvent.timeoutFire j)).2 = none := by
          simp [stepEvent, hm]
        rw [hstep1] at hrec
        rw [hstep1, hstep2]
        simpa [countSettles] using hrec

/-- The ids generated from counter `n` are `n+1, n+2, ...`. -/
theorem genIds_eq_range' (n k : Nat) : genIds n k = List.range' (n + 1) k := by
  induction k generalizing n with
  | zero => rfl
  | succ k ih =>
    rw [List.range'_succ]
    show (n + 1) :: genIds (n + 1) k = (n + 1) :: List.range' (n + 1 + 1) k
    rw [ih]

/-- Concrete client fixture. -/
def clientBase : RPC2Client :=
  { connectionState := .connected, requestId := 0, pending := []
    reconnectAttempts := 0, reconnectTimeoutSet := false, heartbeatSet := false
    autoReconnect := true, enableHeartbeat := true, maxReconnectAttempts := 5
    wsPresent := true }

/- ---------------------------------------------------------------------
   Claim theorems — transport client
--------------------------------------------------------------------- -/

/-- C1: when the dispatch finds the state Connected it attempts the
websocket carrier first; a websocket success is returned with no HTTP
attempt, while any websocket failure triggers exactly one HTTP attempt
whose outcome (success or its own error, never the websocket error) is the
final result.  In any other state the websocket carrier is never attempted
and the call goes straight to one HTTP attempt. -/
theorem claim_call_fallback (α : Type) (st : RPC2ConnectionState)
    (ws http : Except String α) :
    (st = .connected →
        (call st ws http).wsAttempts = 1
        ∧ (∀ v, ws = .ok v → call st ws http
            = { result := .ok v, wsAttempts := 1, httpAttempts := 0 })
        ∧ (∀ e, ws = .error e → call st ws http
            = { result := http, wsAttempts := 1, httpAttempts := 1 }))
    ∧ (st ≠ .connected →
        call st ws http = { result := http, wsAttempts := 0, httpAttempts := 1 }) := by
  constructor
  · intro hst
    subst hst
    refine ⟨?_, ?_, ?_⟩
    · cases ws <;> simp [call]
    · intro v hv; subst hv; simp [call]
    · intro e he; subst he; simp [call]
  · intro hst
    simp [call, hst]

/-- C1 witness: connected with a failing websocket carrier surfaces the
HTTP outcome after one attempt of each; disconnected goes straight to
HTTP. -/
theorem claim_call_fallback_witness :
    call RPC2ConnectionState.connected (Except.error "x") (Except.ok (5 : Nat))
      = { result := Except.ok 5, wsAttempts := 1, httpAttempts := 1 }
    ∧ call RPC2ConnectionState.disconnected (Except.error "x") (Except.ok (5 : Nat))
      = { result := Except.ok 5, wsAttempts := 0, httpAttempts := 1 } := by
  refine ⟨((claim_call_fallback Nat RPC2ConnectionState.connected
    (Except.error "x") (Except.ok 5)).1 rfl).2.2 "x" rfl, ?_⟩
  exact (claim_call_fallback Nat RPC2ConnectionState.disconnected
    (Except.error "x") (Except.ok 5)).2 (by decide)

/-- C4: over any event trace on a distinct correlation table, an id is
settled at most once per registration (so a single registered request is
settled at most once); an id-less (falsy-id) message and a response whose
id matches no outstanding entry are silently discarded without touching
the table; a matching response removes its entry (whose timer is thereby
cleared — timer-active is table membership in this model) and settles it;
a firing timeout removes its entry and rejects. -/
theorem claim_settle_at_most_once (t : List Nat) (es : List RPCEvent) (i : Nat)
    (hN : t.Nodup) :
    countSettles i (runEvents t es).2
        ≤ (if i ∈ t then 1 else 0) + registrations i es
    ∧ (∀ b, stepEvent t (.response none b) = (t, none))
    ∧ (∀ (j : Nat) (b : Bool), j ∉ t →
        stepEvent t (.response (some j) b) = (t, none))
    ∧ (∀ (j : Nat) (b : Bool), j ∈ t → j ≠ 0 →
        stepEvent t (.response (some j) b)
          = (t.erase j, some (if b then .rejectedError j else .resolved j))
        ∧ j ∉ t.erase j)
    ∧ (∀ j : Nat, j ∈ t →
        stepEvent t (.timeoutFire j) = (t.erase j, some (.rejectedTimeout j))
        ∧ j ∉ t.erase j) := by
  refine ⟨runEvents_settle_bound es t i hN, ?_, ?_, ?_, ?_⟩
  · intro b; simp [stepEvent, jsFalsyId]
  · intro j b hj
    by_cases h0 : j = 0
    · subst h0; simp [stepEvent, jsFalsyId]
    · simp [stepEvent, jsFalsyId, h0, hj]
  · intro j b hj h0
    refine ⟨by simp [stepEvent, jsFalsyId, h0, hj], hN.not_mem_erase⟩
  · intro j hj
    refine ⟨by simp [stepEvent, hj], hN.not_mem_erase⟩

/-- C4 witness: with outstanding ids 1 and 2, a response for 1, a duplicate
response for 1 and a stray timeout for 5 settle id 1 exactly once, and an
id-less message is a no-op. -/
theorem claim_settle_at_most_once_witness :
    countSettles 1 (runEvents [1, 2]
        [RPCEvent.response (some 1) false, RPCEvent.response (some 1) false,
         RPCEvent.timeoutFire 5]).2
      ≤ (if 1 ∈ [1, 2] then 1 else 0)
        + registrations 1
          [RPCEvent.response (some 1) false, RPCEvent.response (some 1) false,
           RPCEvent.timeoutFire 5]
    ∧ stepEvent [1, 2] (.response none false) = ([1, 2], none) := by
  have h := claim_settle_at_most_once [1, 2]
    [RPCEvent.response (some 1) false, RPCEvent.response (some 1) false,
     RPCEvent.timeoutFire 5] 1 (by decide)
  exact ⟨h.1, h.2.1 false⟩

/-- C5: `disconnect` empties the correlation table, rejects every pending
call with the fixed connection-closed error ("连接已断开"), clears every
attached per-call timeout, cancels the reconnect and heartbeat timers, and
disables auto-reconnect (leaving the client Disconnected). -/
theorem claim_disconnect_clears (c : RPC2Client) :
    (disconnect c).1.pending = []
    ∧ (disconnect c).2.rejections = c.pending.map (fun p => (p.id, "连接已断开"))
    ∧ (disconnect c).2.clearedTimers
        = (c.pending.filter (fun p => p.hasTimeout)).map (fun p => p.id)
    ∧ (disconnect c).1.autoReconnect = false
    ∧ (disconnect c).1.reconnectTimeoutSet = false
    ∧ (disconnect c).1.heartbeatSet = false
    ∧ (disconnect c).1.connectionState = RPC2ConnectionState.disconnected :=
  ⟨rfl, rfl, rfl, rfl, rfl, rfl, rfl⟩

/-- C6: every automatic reconnect attempt increments the attempt counter;
a close while the counter has reached the configured maximum leaves the
client Disconnected without scheduling anything and without touching the
counter; a successful open resets the counter to zero. -/
theorem claim_reconnect_counter (c : RPC2Client) :
    (attemptReconnect c).reconnectAttempts = c.reconnectAttempts + 1
    ∧ (onOpen c).reconnectAttempts = 0
    ∧ (c.autoReconnect = true → c.reconnectAttempts < c.maxReconnectAttempts →
        (onClose c).reconnectAttempts = c.reconnectAttempts + 1
        ∧ (onClose c).connectionState = RPC2ConnectionState.reconnecting
        ∧ (onClose c).reconnectTimeoutSet = true)
    ∧ (c.maxReconnectAttempts ≤ c.reconnectAttempts →
        (onClose c).connectionState = RPC2ConnectionState.disconnected
        ∧ (onClose c).reconnectAttempts = c.reconnectAttempts
        ∧ (onClose c).reconnectTimeoutSet = c.reconnectTimeoutSet) := by
  refine ⟨rfl, ?_, ?_, ?_⟩
  · by_cases h : c.enableHeartbeat <;> simp [onOpen, startHeartbeat, h]
  · intro ha hlt
    simp only [onClose, stopHeartbeat]
    rw [if_pos ⟨ha, hlt⟩]
    exact ⟨rfl, rfl, rfl⟩
  · intro hge
    simp only [onClose, stopHeartbeat]
    rw [if_neg (fun hcond => absurd hcond.2 (by omega))]
    exact ⟨rfl, rfl, rfl⟩

/-- C6 witness: a client at the maximum attempt count (5 of 5) closes into
Disconnected without a new reconnect timer, and an attempt increments. -/
theorem claim_reconnect_counter_witness :
    (attemptReconnect { clientBase with reconnectAttempts := 5 }).reconnectAttempts = 6
    ∧ (onClose { clientBase with reconnectAttempts := 5 }).connectionState
        = RPC2ConnectionState.disconnected
    ∧ (onClose { clientBase with reconnectAttempts := 5 }).reconnectTimeoutSet
        = false := by
  have h := claim_reconnect_counter { clientBase with reconnectAttempts := 5 }
  exact ⟨h.1, (h.2.2.2 (by decide)).1, (h.2.2.2 (by decide)).2.2⟩

/-- C9: calling `connect` while Connected or Connecting returns immediately:
no new socket is opened, the state does not change, and the correlation
table and the timers are untouched. -/
theorem claim_connect_noop (c : RPC2Client)
    (h : c.connectionState = RPC2ConnectionState.connected
      ∨ c.connectionState = RPC2ConnectionState.connecting) :
    connectStep c = (c, false)
    ∧ (connectStep c).1.pending = c.pending
    ∧ (connectStep c).1.connectionState = c.connectionState
    ∧ (connectStep c).1.reconnectTimeoutSet = c.reconnectTimeoutSet
    ∧ (connectStep c).1.heartbeatSet = c.heartbeatSet
    ∧ (connectStep c).2 = false := by
  have hc : connectStep c = (c, false) := by
    rw [connectStep, if_pos h]
  exact ⟨hc, by rw [hc], by rw [hc], by rw [hc], by rw [hc], by rw [hc]⟩

/-- C9 witness: instantiated at a concrete connected client. -/
theorem claim_connect_noop_witness :
    connectStep clientBase = (clientBase, false)
    ∧ (connectStep clientBase).1.pending = clientBase.pending :=
  ⟨(claim_connect_noop clientBase (Or.inl rfl)).1,
   (claim_connect_noop clientBase (Or.inl rfl)).2.1⟩

/-- C10: from a fresh client the first `k` correlated requests get the ids
1, 2, ..., k — strictly increasing positive integers with no repetition —
and none of them is falsy, so the `!data.id` discard check of
`handleMessage` never drops a response addressed to a real pending
request. -/
theorem claim_request_ids (k : Nat) :
    genIds 0 k = List.range' 1 k
    ∧ List.Chain' (· < ·) (genIds 0 k)
    ∧ (genIds 0 k).Nodup
    ∧ ∀ i ∈ genIds 0 k, 0 < i ∧ jsFalsyId (some i) = false := by
  have he := genIds_eq_range' 0 k
  have hpw : (genIds 0 k).Pairwise (· < ·) := by
    rw [he]; exact List.pairwise_lt_range' 1 k
  refine ⟨he, hpw.chain', hpw.imp Nat.ne_of_lt, ?_⟩
  intro i hi
  rw [he] at hi
  have hmem := List.mem_range'_1.mp hi
  have hpos : 0 < i := by omega
  refine ⟨hpos, ?_⟩
  simp [jsFalsyId, Nat.pos_iff_ne_zero.mp hpos]

/-- C10 witness: the first three ids are [1, 2, 3] and the id 2 is not
falsy. -/
theorem claim_request_ids_witness :
    genIds 0 3 = [1, 2, 3] ∧ jsFalsyId (some 2) = false := by
  have h := claim_request_ids 3
  refine ⟨by rw [h.1]; rfl, ?_⟩
  exact (h.2.2.2 2 (by rw [h.1]; decide)).2

end NezhaDash
